import Mathlib

/-!
Verification development for the `barbatos` contracts package: base record
schemas (`orm` package), the cache, logger, pub/sub and object-storage
contracts.  Pure Go code (the `MModel.BeforeCreate` hook, the `Stats`
struct, the sentinel errors) is embedded directly; the behavioural
contracts, which the repository declares as interfaces with documented
semantics but does not implement, are modelled from the spec as reference
implementations and verified against the stated properties.
-/

namespace Barbatos

/-! ## ORM record bases (package `orm`) -/

/-- Embeds `gorm.DeletedAt`: a nullable timestamp.  `valid = false`
means SQL NULL (the record is active); `valid = true` means the record is
soft-deleted at time `time` (microseconds, modelled as `Nat`). -/
structure DeletedAt where
  time : Nat
  valid : Bool
  deriving Repr, DecidableEq

/-- Embeds `orm.MModel`, the MySQL-variant base record: a string UUID
primary key plus audit timestamps (times modelled as `Nat` microseconds). -/
structure MModel where
  ID : String
  CreatedAt : Nat
  UpdatedAt : Nat
  DeletedAt : DeletedAt
  deriving Repr, DecidableEq

/-- Embeds `MModel.BeforeCreate`.  The Go body is
`mModel.ID = uuid.New().String(); return nil`: the call of `uuid.New()`
is nondeterministic, so the freshly generated UUID string is passed in
explicitly as `newId`.  Returns the updated model and the Go `error`
result (`none` embeds Go `nil`). -/
def MModel.beforeCreate (m : MModel) (newId : String) : MModel × Option String :=
  ({ m with ID := newId }, none)

/-! ## Cache contract (package `cache`) -/

/-- The error identities of the cache contract.  `errCacheNil` embeds the
sentinel `cache.ErrCacheNil` ("cache: nil"), returned when a requested key
exists but its stored value is nil.  `errNotFound` — modelled from the
spec: the repository defines no not-found sentinel of its own, but the
spec requires `Get` on a missing key to signal a distinct not-found
condition, so the model carries it as a separate error identity. -/
inductive CacheErr where
  | errCacheNil
  | errNotFound
  deriving Repr, DecidableEq

/-- One stored cache entry: `value = none` embeds the empty/nil sentinel
explicitly stored for the key; `expireAt = none` means no expiration,
`expireAt = some t` means the entry is absent once the clock reaches `t`. -/
structure CacheEntry where
  value : Option String
  expireAt : Option Nat
  deriving Repr, DecidableEq

/-- Modelled from the spec: the state of a conforming in-memory cache
implementation — an association list from key to entry plus the current
clock (the repository declares `cache.Cache` as an interface only). -/
structure CacheState where
  entries : List (String × CacheEntry)
  now : Nat
  deriving Repr, DecidableEq

/-- The empty cache at clock 0. -/
def CacheState.empty : CacheState := ⟨[], 0⟩

/-- Raw association-list lookup, ignoring expiration. -/
def CacheState.find (s : CacheState) (k : String) : Option CacheEntry :=
  (s.entries.find? (fun p => p.1 == k)).map Prod.snd

/-- Whether an entry is still live at clock `now`. -/
def CacheEntry.live (e : CacheEntry) (now : Nat) : Bool :=
  match e.expireAt with
  | none => true
  | some t => now < t

/-- Modelled from the spec: `Cache.Get`.  A key that is absent (or whose
entry has expired) yields the not-found condition; a key stored with the
nil sentinel yields `ErrCacheNil`; otherwise the stored string. -/
def CacheState.get (s : CacheState) (k : String) : Except CacheErr String :=
  match s.find k with
  | none => .error .errNotFound
  | some e =>
    if e.live s.now then
      match e.value with
      | none => .error .errCacheNil
      | some v => .ok v
    else .error .errNotFound

/-- Modelled from the spec: `Cache.Set` stores `v` under `k` with no
expiration, overwriting any previous entry for `k`. -/
def CacheState.set (s : CacheState) (k : String) (v : Option String) : CacheState :=
  { s with entries := (k, ⟨v, none⟩) :: s.entries.filter (fun p => !(p.1 == k)) }

/-- Modelled from the spec: `Cache.SetWithExpiration` stores `v` under `k`
expiring `d` after the current clock. -/
def CacheState.setWithExpiration (s : CacheState) (k : String) (v : Option String)
    (d : Nat) : CacheState :=
  { s with entries := (k, ⟨v, some (s.now + d)⟩) :: s.entries.filter (fun p => !(p.1 == k)) }

/-- Modelled from the spec: `Cache.Del` removes the listed keys. -/
def CacheState.del (s : CacheState) (ks : List String) : CacheState :=
  { s with entries := s.entries.filter (fun p => !(ks.contains p.1)) }

/-- Glob-style pattern matching over characters: `*` matches any run,
`?` any single character, anything else itself. -/
def matchGlob : List Char → List Char → Bool
  | [], [] => true
  | [], _ :: _ => false
  | '*' :: ps, [] => matchGlob ps []
  | '*' :: ps, c :: cs => matchGlob ps (c :: cs) || matchGlob ('*' :: ps) cs
  | '?' :: _, [] => false
  | '?' :: ps, _ :: cs => matchGlob ps cs
  | p :: ps, c :: cs => p == c && matchGlob ps cs
  | _ :: _, [] => false
  termination_by ps cs => (ps.length, cs.length)

/-- Glob matching on strings. -/
def matchGlobStr (pat s : String) : Bool :=
  matchGlob pat.data s.data

/-- Modelled from the spec: `Cache.Keys` returns the live keys matching
the pattern (as an `Except` since the Go method can return an error). -/
def CacheState.keys (s : CacheState) (pat : String) : Except CacheErr (List String) :=
  .ok ((s.entries.filter (fun p => p.2.live s.now && matchGlobStr pat p.1)).map Prod.fst)

/-- Modelled from the spec: `Cache.DelWithPattern` removes every key
matching the pattern; per the spec it is atomic — it either removes all
matching keys and reports success, or reports an error leaving the state
unchanged (the model always succeeds). -/
def CacheState.delWithPattern (s : CacheState) (pat : String) :
    Except CacheErr CacheState :=
  .ok { s with entries := s.entries.filter (fun p => !(matchGlobStr pat p.1)) }

/-- A cache operation issued after some point in time, used to state
persistence of a stored value across later activity.  `tick` advances the
clock (time passing between calls). -/
inductive CacheOp where
  | opSet (k : String) (v : Option String)
  | opSetExp (k : String) (v : Option String) (d : Nat)
  | opDel (ks : List String)
  | opDelPat (pat : String)
  | tick (dt : Nat)
  deriving Repr, DecidableEq

/-- Applying one cache operation to the state.  A `delWithPattern` that
reported an error would leave the state unchanged; the model's always
succeeds, so its new state is used. -/
def CacheState.applyOp (s : CacheState) : CacheOp → CacheState
  | .opSet k v => s.set k v
  | .opSetExp k v d => s.setWithExpiration k v d
  | .opDel ks => s.del ks
  | .opDelPat pat =>
    match s.delWithPattern pat with
    | .ok s' => s'
    | .error _ => s
  | .tick dt => { s with now := s.now + dt }

/-- Whether a cache operation writes, deletes or pattern-deletes key `k`
(ticks never touch a key). -/
def CacheOp.touches (k : String) : CacheOp → Bool
  | .opSet k' _ => k' == k
  | .opSetExp k' _ _ => k' == k
  | .opDel ks => ks.contains k
  | .opDelPat pat => matchGlobStr pat k
  | .tick _ => false

/-- Running a list of cache operations in order. -/
def CacheState.run (s : CacheState) (ops : List CacheOp) : CacheState :=
  ops.foldl CacheState.applyOp s

/-! ## Pub/sub contract (package `pubsub`) -/

/-- Embeds the sentinel `pubsub.ErrConnectFailed`. -/
inductive PubSubErr where
  | errConnectFailed
  deriving Repr, DecidableEq

/-- Modelled from the spec: the topic interest set of a conforming
`pubsub.Subscriber` implementation (the repository declares the
interface only).  Topics are kept without duplicates. -/
structure SubscriberState where
  topics : List String
  deriving Repr, DecidableEq

/-- Adding one topic to an interest set: a no-op if already present. -/
def addTopic (acc : List String) (t : String) : List String :=
  if acc.contains t then acc else acc ++ [t]

/-- Modelled from the spec: `Subscriber.Subscribe` adds each given topic
to the interest set, idempotently, and reports success (`none` embeds a
nil Go error). -/
def SubscriberState.subscribe (s : SubscriberState) (ts : List String) :
    SubscriberState × Option PubSubErr :=
  ({ topics := ts.foldl addTopic s.topics }, none)

/-- Modelled from the spec: `Subscriber.Unsubscribe` removes the given
topics from the interest set. -/
def SubscriberState.unsubscribe (s : SubscriberState) (ts : List String) :
    SubscriberState × Option PubSubErr :=
  ({ topics := s.topics.filter (fun t => !(ts.contains t)) }, none)

/-! ## Object storage contract (package `bucket`) -/

/-- The sentinel errors of `bucket/error.go`: `ErrNotFound`,
`ErrFailedToUpload`, `ErrFailedToDownload`, `ErrFailedToStats`. -/
inductive BucketErr where
  | errNotFound
  | errFailedToUpload
  | errFailedToDownload
  | errFailedToStats
  deriving Repr, DecidableEq

/-- Embeds `bucket.Stats`: object metadata.  Go `int64` fields are
modelled as `Int`, the last-modified `time.Time` as `Nat`. -/
structure Stats where
  Total : Int
  Size : Int
  ContentType : String
  LastModified : Nat
  deriving Repr, DecidableEq

/-- One stored object: its bytes (each a `Nat` < 256 in intent; byte
arithmetic is never used) and the upload time. -/
structure StoredObject where
  data : List Nat
  uploadedAt : Nat
  deriving Repr, DecidableEq

/-- Modelled from the spec: the state of a conforming `bucket.Bucket`
implementation — named binary objects (the repository declares the
interface only). -/
structure BucketState where
  objects : List (String × StoredObject)
  deriving Repr, DecidableEq

/-- The empty bucket. -/
def BucketState.empty : BucketState := ⟨[]⟩

/-- Lookup of a stored object by name. -/
def BucketState.find (s : BucketState) (name : String) : Option StoredObject :=
  (s.objects.find? (fun p => p.1 == name)).map Prod.snd

/-- Modelled from the spec: `Bucket.PutObject` streams `reader` (its full
byte sequence) of declared length `readerLen` to object `name` at time
`now`.  A declared length that does not match the actual stream length is
rejected with `ErrFailedToUpload`, leaving the bucket unchanged;
otherwise the object is stored, overwriting any previous object of that
name. -/
def BucketState.putObject (s : BucketState) (name : String) (reader : List Nat)
    (readerLen : Int) (now : Nat) : BucketState × Option BucketErr :=
  if readerLen = (reader.length : Int) then
    (⟨(name, ⟨reader, now⟩) :: s.objects.filter (fun p => !(p.1 == name))⟩, none)
  else
    (s, some .errFailedToUpload)

/-- Modelled from the spec: `Bucket.GetObject` returns the stored byte
stream, or `ErrNotFound` when the object is absent. -/
def BucketState.getObject (s : BucketState) (name : String) :
    Except BucketErr (List Nat) :=
  match s.find name with
  | none => .error .errNotFound
  | some o => .ok o.data

/-- The content type the model reports for every object (the `PutObject`
signature carries none, so a conforming implementation stores a default). -/
def defaultContentType : String := "application/octet-stream"

/-- Modelled from the spec: `Bucket.Stats` returns the object's metadata
without the body — its size, content type, last-modified time, and the
total number of objects in the bucket — or `ErrNotFound` when absent. -/
def BucketState.stats (s : BucketState) (name : String) : Except BucketErr Stats :=
  match s.find name with
  | none => .error .errNotFound
  | some o =>
    .ok ⟨(s.objects.length : Int), (o.data.length : Int), defaultContentType, o.uploadedAt⟩

/-! ## Logger contract (package `log`) -/

/-- What a logger call does to control flow after emitting its line:
return normally to the caller, unwind the current call stack (a Go
panic), or terminate the whole process (`os.Exit`). -/
inductive ControlEffect where
  | returnsToCaller
  | unwindsStack
  | exitsProcess
  deriving Repr, DecidableEq

/-- The six severity levels of the `log.Logger` contract. -/
inductive Level where
  | debug
  | info
  | warn
  | error
  | panicLevel
  | fatal
  deriving Repr, DecidableEq

/-- Modelled from the spec: the control effect each severity level has
after emitting its line, per the doc comments of `log/logger.go` —
Debug/Info/Warn/Error return control, Panic "triggers a panic ... start
unwinding the stack", Fatal "terminates the program". -/
def Level.effect : Level → ControlEffect
  | .debug => .returnsToCaller
  | .info => .returnsToCaller
  | .warn => .returnsToCaller
  | .error => .returnsToCaller
  | .panicLevel => .unwindsStack
  | .fatal => .exitsProcess

/-- One emitted log event: the rendered line and the control effect that
follows it. -/
structure LogEvent where
  level : Level
  line : String
  effect : ControlEffect
  deriving Repr, DecidableEq

/-- Rendering of the unformatted variadic shape (`Debug`, `Error`,
`Panic`, `Fatal`, ...): the arguments joined. -/
def renderArgs (args : List String) : String :=
  String.join args

/-- Rendering of the printf-style shape (`Debugf`, ..., `Fatalf`):
modelled as the template paired with its arguments. -/
def renderTemplate (template : String) (args : List String) : String :=
  String.join (template :: args)

/-- Rendering of the structured shape (`Debugw`, ..., `Fatalw`): the
message followed by its key-value pairs. -/
def renderKV (msg : String) (kvs : List (String × String)) : String :=
  String.join (msg :: kvs.map (fun p => p.1 ++ "=" ++ p.2))

/-- Modelled from the spec: a level's unformatted call (`Debug`, `Info`,
`Warn`, `Error`, `Panic`, `Fatal`). -/
def logCall (lv : Level) (args : List String) : LogEvent :=
  ⟨lv, renderArgs args, lv.effect⟩

/-- Modelled from the spec: a level's printf-style call (`Debugf`, ...,
`Panicf`, `Fatalf`). -/
def logCallF (lv : Level) (template : String) (args : List String) : LogEvent :=
  ⟨lv, renderTemplate template args, lv.effect⟩

/-- Modelled from the spec: a level's structured call (`Debugw`, ...,
`Panicw`, `Fatalw`). -/
def logCallW (lv : Level) (msg : String) (kvs : List (String × String)) : LogEvent :=
  ⟨lv, renderKV msg kvs, lv.effect⟩

/-! ## Helper lemmas -/

/-- `find?` commutes with a `filter` that keeps every element the search
predicate accepts. -/
theorem find?_filter_keep {α : Type} (l : List α) (q f : α → Bool)
    (h : ∀ x, q x = true → f x = true) :
    (l.filter f).find? q = l.find? q := by
  induction l with
  | nil => rfl
  | cons x xs ih =>
    by_cases hq : q x
    · have hf := h x hq
      simp [List.filter_cons, hf, List.find?_cons, hq]
    · simp only [Bool.not_eq_true] at hq
      by_cases hf : f x
      · simp [List.filter_cons, hf, List.find?_cons, hq, ih]
      · simp only [Bool.not_eq_true] at hf
        simp [List.filter_cons, hf, List.find?_cons, hq, ih]

/-- The pattern `"*"` matches every character sequence. -/
theorem matchGlob_star (cs : List Char) : matchGlob ['*'] cs = true := by
  induction cs with
  | nil => simp [matchGlob]
  | cons c cs ih => simp [matchGlob, ih]

/-- The pattern `"*"` matches every string. -/
theorem matchGlobStr_star (s : String) : matchGlobStr "*" s = true := by
  have : ("*" : String).data = ['*'] := rfl
  simp [matchGlobStr, this, matchGlob_star]

/-- A cache operation that does not touch key `k` leaves `find k`
unchanged. -/
theorem applyOp_find_untouched (s : CacheState) (op : CacheOp) (k : String)
    (h : op.touches k = false) :
    (s.applyOp op).find k = s.find k := by
  cases op with
  | opSet k' v =>
    simp only [CacheOp.touches] at h
    simp only [CacheState.applyOp, CacheState.set, CacheState.find, List.find?_cons, h]
    exact congrArg _ (find?_filter_keep _ _ _ (by
      intro x hx
      have : x.1 = k := by simpa using hx
      simp [this]
      intro h'
      simp [h'] at h))
  | opSetExp k' v d =>
    simp only [CacheOp.touches] at h
    simp only [CacheState.applyOp, CacheState.setWithExpiration, CacheState.find,
      List.find?_cons, h]
    exact congrArg _ (find?_filter_keep _ _ _ (by
      intro x hx
      have : x.1 = k := by simpa using hx
      simp [this]
      intro h'
      simp [h'] at h))
  | opDel ks =>
    simp only [CacheOp.touches] at h
    simp only [CacheState.applyOp, CacheState.del, CacheState.find]
    exact congrArg _ (find?_filter_keep _ _ _ (by
      intro x hx
      have : x.1 = k := by simpa using hx
      simp [this, h]
      simpa using h))
  | opDelPat pat =>
    simp only [CacheOp.touches] at h
    simp only [CacheState.applyOp, CacheState.delWithPattern, CacheState.find]
    exact congrArg _ (find?_filter_keep _ _ _ (by
      intro x hx
      have : x.1 = k := by simpa using hx
      simp [this, h]))
  | tick dt =>
    simp [CacheState.applyOp, CacheState.find]

/-- Running operations that never touch key `k` leaves `find k`
unchanged. -/
theorem run_find_untouched (ops : List CacheOp) (s : CacheState) (k : String)
    (h : ∀ op ∈ ops, op.touches k = false) :
    (s.run ops).find k = s.find k := by
  induction ops generalizing s with
  | nil => rfl
  | cons op ops ih =>
    have h1 : op.touches k = false := h op (List.mem_cons_self op ops)
    have h2 : ∀ o ∈ ops, o.touches k = false := fun o ho => h o (List.mem_cons_of_mem op ho)
    calc (s.run (op :: ops)).find k
        = ((s.applyOp op).run ops).find k := rfl
      _ = (s.applyOp op).find k := ih (s.applyOp op) h2
      _ = s.find k := applyOp_find_untouched s op k h1

/-- After `set k v`, `find k` returns the unexpiring entry holding `v`. -/
theorem set_find_self (s : CacheState) (k : String) (v : Option String) :
    (s.set k v).find k = some ⟨v, none⟩ := by
  simp [CacheState.set, CacheState.find, List.find?_cons]

/-- A key holding an unexpiring entry with a real value is read back as
that value, at any clock. -/
theorem get_of_find_unexpiring (s : CacheState) (k : String) (v : String)
    (h : s.find k = some ⟨some v, none⟩) :
    s.get k = .ok v := by
  simp [CacheState.get, h, CacheEntry.live]

/-! ## Claims -/

/-- C1, counterexample: the claim says `BeforeCreate` leaves an
already-assigned ID intact, but on a model whose ID is already
`"id-old"`, the hook invoked with the freshly generated UUID `"id-new"`
returns a model whose ID is no longer `"id-old"`. -/
theorem beforeCreate_overwrites_assigned_id :
    (MModel.beforeCreate ⟨"id-old", 5, 6, ⟨0, false⟩⟩ "id-new").1.ID ≠ "id-old" := by
  simp [MModel.beforeCreate]

/-- C1, amended: `BeforeCreate`, run before insert, assigns the ID at
that moment — it unconditionally overwrites the ID field with the freshly
generated UUID (replacing even an already-assigned ID on that and any
later invocation) and reports success. -/
theorem beforeCreate_assigns_fresh_id (m : MModel) (newId : String) :
    (m.beforeCreate newId).1.ID = newId ∧ (m.beforeCreate newId).2 = none := by
  simp [MModel.beforeCreate]

/-- C9: `BeforeCreate` always returns a nil error, and it modifies only
the ID field — `CreatedAt`, `UpdatedAt` and `DeletedAt` are unchanged. -/
theorem beforeCreate_frame (m : MModel) (newId : String) :
    (m.beforeCreate newId).2 = none ∧
    (m.beforeCreate newId).1.CreatedAt = m.CreatedAt ∧
    (m.beforeCreate newId).1.UpdatedAt = m.UpdatedAt ∧
    (m.beforeCreate newId).1.DeletedAt = m.DeletedAt := by
  simp [MModel.beforeCreate]

/-- C2: `Get` on a key that is absent returns the not-found condition,
`Get` on a key explicitly stored with the nil sentinel returns
`ErrCacheNil`, and the two error identities are distinct. -/
theorem get_distinguishes_missing_from_nil (s : CacheState) (k : String)
    (h : s.find k = none) :
    s.get k = .error .errNotFound ∧
    (s.set k none).get k = .error .errCacheNil ∧
    CacheErr.errNotFound ≠ CacheErr.errCacheNil := by
  refine ⟨?_, ?_, by simp⟩
  · simp [CacheState.get, h]
  · have := set_find_self s k none
    simp [CacheState.get, this, CacheEntry.live]

/-- C2, witness: on the empty cache and key `"k"`. -/
theorem get_distinguishes_missing_from_nil_witness :
    CacheState.empty.get "k" = .error .errNotFound ∧
    (CacheState.empty.set "k" none).get "k" = .error .errCacheNil ∧
    CacheErr.errNotFound ≠ CacheErr.errCacheNil :=
  get_distinguishes_missing_from_nil CacheState.empty "k" rfl

/-- C8: subscribing to a topic already in the interest set is a no-op —
the interest set is unchanged and the call reports success, not an
error. -/
theorem subscribe_idempotent (s : SubscriberState) (t : String)
    (h : s.topics.contains t = true) :
    s.subscribe [t] = (s, none) := by
  have h' : t ∈ s.topics := by simpa using h
  simp [SubscriberState.subscribe, addTopic, h']

/-- C8, witness: subscribing to `"orders"` when already subscribed. -/
theorem subscribe_idempotent_witness :
    SubscriberState.subscribe ⟨["orders"]⟩ ["orders"] = (⟨["orders"]⟩, none) :=
  subscribe_idempotent ⟨["orders"]⟩ "orders" (by decide)

/-- C5: every Panic-level call shape, after emitting its line, unwinds
the call stack; every Fatal-level call shape terminates the process; the
two escalations are distinct, and neither merely returns control the way
`Error` does. -/
theorem panic_fatal_escalations (args : List String) (template msg : String)
    (kvs : List (String × String)) :
    (logCall .panicLevel args).effect = .unwindsStack ∧
    (logCallF .panicLevel template args).effect = .unwindsStack ∧
    (logCallW .panicLevel msg kvs).effect = .unwindsStack ∧
    (logCall .fatal args).effect = .exitsProcess ∧
    (logCallF .fatal template args).effect = .exitsProcess ∧
    (logCallW .fatal msg kvs).effect = .exitsProcess ∧
    (logCall .error args).effect = .returnsToCaller ∧
    ControlEffect.unwindsStack ≠ ControlEffect.exitsProcess ∧
    ControlEffect.unwindsStack ≠ ControlEffect.returnsToCaller ∧
    ControlEffect.exitsProcess ≠ ControlEffect.returnsToCaller := by
  simp [logCall, logCallF, logCallW, Level.effect]

/-- C7: after `Set(k, v)`, `Get(k)` returns `v`, and keeps returning `v`
across any sequence of later cache operations (including time passing)
none of which overwrites, deletes or pattern-deletes `k`. -/
theorem set_get_persists (s : CacheState) (k v : String) (ops : List CacheOp)
    (h : ∀ op ∈ ops, op.touches k = false) :
    ((s.set k (some v)).run ops).get k = .ok v := by
  apply get_of_find_unexpiring
  calc ((s.set k (some v)).run ops).find k
      = (s.set k (some v)).find k := run_find_untouched ops _ k h
    _ = some ⟨some v, none⟩ := set_find_self s k (some v)

/-- C7, witness: `"session"` set to `"active"` survives an unrelated
set, five clock ticks and an unrelated delete. -/
theorem set_get_persists_witness :
    (∀ op ∈ [CacheOp.opSet "other" (some "x"), CacheOp.tick 5, CacheOp.opDel ["other"]],
      op.touches "session" = false) ∧
    ((CacheState.empty.set "session" (some "active")).run
      [CacheOp.opSet "other" (some "x"), CacheOp.tick 5, CacheOp.opDel ["other"]]).get
        "session" = .ok "active" :=
  ⟨by decide, set_get_persists CacheState.empty "session" "active" _ (by decide)⟩

/-- C4: `DelWithPattern` is atomic for the caller — it reports success
having removed every key matching the pattern while leaving every other
key untouched (an error would leave the state unchanged, never a silent
partial deletion); in particular after `DelWithPattern("*")` the key set
reported by `Keys("*")` is empty. -/
theorem delWithPattern_atomic (s : CacheState) (pat : String) :
    (∃ s', s.delWithPattern pat = .ok s' ∧
      (∀ k, matchGlobStr pat k = true → s'.find k = none) ∧
      (∀ k, matchGlobStr pat k = false → s'.find k = s.find k)) ∧
    (∃ s'', s.delWithPattern "*" = .ok s'' ∧ s''.keys "*" = .ok []) := by
  constructor
  · refine ⟨_, rfl, ?_, ?_⟩
    · intro k hk
      simp only [CacheState.find, Option.map_eq_none', List.find?_eq_none]
      intro x hx hxk
      have hmem := List.of_mem_filter hx
      have : x.1 = k := by simpa using hxk
      rw [this, hk] at hmem
      simp at hmem
    · intro k hk
      simp only [CacheState.find]
      exact congrArg _ (find?_filter_keep _ _ _ (by
        intro x hx
        have : x.1 = k := by simpa using hx
        simp [this, hk]))
  · refine ⟨_, rfl, ?_⟩
    have hempty : (s.entries.filter (fun p => !(matchGlobStr "*" p.1))) = [] := by
      apply List.filter_eq_nil_iff.mpr
      intro p _
      simp [matchGlobStr_star]
    simp [CacheState.delWithPattern, CacheState.keys, hempty]

/-- C3: `PutObject` with a declared length different from the actual
stream length fails with `ErrFailedToUpload` and leaves the bucket
unchanged, so no partial object is retrievable afterward — `GetObject`
on that name returns exactly what it returned before the call. -/
theorem putObject_length_mismatch (s : BucketState) (name : String)
    (reader : List Nat) (readerLen : Int) (now : Nat)
    (h : readerLen ≠ (reader.length : Int)) :
    (s.putObject name reader readerLen now).2 = some .errFailedToUpload ∧
    (s.putObject name reader readerLen now).1 = s ∧
    ((s.putObject name reader readerLen now).1).getObject name = s.getObject name := by
  simp [BucketState.putObject, h]

/-- C3, witness: a three-byte stream declared as length 2 on the empty
bucket. -/
theorem putObject_length_mismatch_witness :
    (BucketState.empty.putObject "obj" [1, 2, 3] 2 0).2 = some .errFailedToUpload ∧
    (BucketState.empty.putObject "obj" [1, 2, 3] 2 0).1 = BucketState.empty ∧
    ((BucketState.empty.putObject "obj" [1, 2, 3] 2 0).1).getObject "obj" =
      BucketState.empty.getObject "obj" :=
  putObject_length_mismatch BucketState.empty "obj" [1, 2, 3] 2 0 (by decide)

/-- C6: a successful `PutObject(name, data, len(data))` followed by
`GetObject(name)` yields exactly the bytes `data`, and `Stats(name)`
reports `Size = len(data)`. -/
theorem putObject_roundtrip (s : BucketState) (name : String) (reader : List Nat)
    (now : Nat) :
    (s.putObject name reader (reader.length : Int) now).2 = none ∧
    ((s.putObject name reader (reader.length : Int) now).1).getObject name = .ok reader ∧
    ∃ st, ((s.putObject name reader (reader.length : Int) now).1).stats name = .ok st ∧
      st.Size = (reader.length : Int) := by
  refine ⟨by simp [BucketState.putObject], ?_, ?_⟩
  · simp [BucketState.putObject, BucketState.getObject, BucketState.find, List.find?_cons]
  · refine ⟨⟨(((s.putObject name reader (reader.length : Int) now).1).objects.length : Int),
      (reader.length : Int), defaultContentType, now⟩, ?_, rfl⟩
    simp [BucketState.putObject, BucketState.stats, BucketState.find, List.find?_cons]

/-- C10: the metadata record returned by `Stats` carries, besides the
object's size, content type and last-modified time, a `Total` field
giving the total number of objects in the bucket. -/
theorem stats_carries_total (s : BucketState) (name : String) (o : StoredObject)
    (h : s.find name = some o) :
    ∃ st, s.stats name = .ok st ∧
      st.Total = (s.objects.length : Int) ∧
      st.Size = (o.data.length : Int) ∧
      st.ContentType = defaultContentType ∧
      st.LastModified = o.uploadedAt := by
  refine ⟨⟨(s.objects.length : Int), (o.data.length : Int), defaultContentType,
    o.uploadedAt⟩, ?_, rfl, rfl, rfl, rfl⟩
  simp [BucketState.stats, h]

/-- C10, witness: a two-object bucket. -/
theorem stats_carries_total_witness :
    ∃ st, (BucketState.mk [("a", ⟨[7], 1⟩), ("b", ⟨[8, 9], 2⟩)]).stats "b" = .ok st ∧
      st.Total = ((BucketState.mk [("a", ⟨[7], 1⟩), ("b", ⟨[8, 9], 2⟩)]).objects.length : Int) ∧
      st.Size = (([8, 9] : List Nat).length : Int) ∧
      st.ContentType = defaultContentType ∧
      st.LastModified = 2 :=
  stats_carries_total (BucketState.mk [("a", ⟨[7], 1⟩), ("b", ⟨[8, 9], 2⟩)]) "b"
    ⟨[8, 9], 2⟩ (by decide)

end Barbatos
